import Mathlib

/-
Shallow embedding of the BirdNET-Pi audio review player
(src/unnamed/part_004, the AudioPlayer Svelte component with the Web Audio
filter chain, and the shared currentlyPlaying store from
src/frontend/src/lib/components, lines 321-322 of that file).

The component is single-threaded and event-driven.  We model the page as a
list of controller records plus the one shared currentlyPlaying slot, and
each DOM / media event handler as a function on that state.  Numeric values
(times, frequencies, linear gains) are modelled as rationals.
-/

namespace BirdNET

/-- One stage of the Web Audio chain the component builds (setupAudioGraph,
script lines 54-82 of the AudioPlayer component). -/
inductive Node where
  | source
  | highPass
  | lowPass
  | gainStage
  | volumeStage
  | destination
  deriving DecidableEq

/-- The connect calls of setupAudioGraph in source order (lines 77-81):
source to highPass, highPass to lowPass, lowPass to gainStage, gainStage to
volumeStage, volumeStage to destination. -/
def graphChain : List (Node × Node) :=
  [(Node.source, Node.highPass), (Node.highPass, Node.lowPass),
   (Node.lowPass, Node.gainStage), (Node.gainStage, Node.volumeStage),
   (Node.volumeStage, Node.destination)]

/-- The Web Audio objects owned by one player once setupAudioGraph has run:
the scalar parameter carried by each stage, and the list of live
connections between stages. -/
structure AudioGraph where
  highPassFreq : ℚ
  lowPassFreq : ℚ
  gainValue : ℚ
  volumeValue : ℚ
  connections : List (Node × Node)
  deriving DecidableEq

/-- The script-level state of one AudioPlayer component instance
(script lines 5-23).  `graph` is `none` exactly when `audioContext` is still
null (the graph has not been built); `contextClosed` records that
`audioContext.close()` was called by onDestroy; `destroyed` records that the
component was unmounted. -/
structure Controller where
  src : String
  isPlaying : Bool
  currentTime : ℚ
  duration : ℚ
  lowPassHz : ℚ
  highPassHz : ℚ
  gain : ℚ
  volume : ℚ
  graph : Option AudioGraph
  contextClosed : Bool
  destroyed : Bool
  deriving DecidableEq

/-- Initial component state (script lines 9-23): not playing, time and
duration 0, lowPassHz 20000, highPassHz 20, gain 1, volume 1, no graph. -/
def mkController (s : String) : Controller :=
  ⟨s, false, 0, 0, 20000, 20, 1, 1, none, false, false⟩

/-- The whole page: every mounted AudioPlayer in document order, plus the
shared `currentlyPlaying` writable store (`Option` of the audible src). -/
structure Page where
  controllers : List Controller
  currentlyPlaying : Option String
  deriving DecidableEq

/-- Point update of the controller at position `i`. -/
def updateAt : Nat → (Controller → Controller) → List Controller → List Controller
  | _, _, [] => []
  | 0, f, c :: cs => f c :: cs
  | Nat.succ n, f, c :: cs => c :: updateAt n f cs

/-- Value sanitization of an HTML range input: a value outside
`[lo, hi]` is replaced by the nearest bound.  This is the set surface of the
four parameter sliders (markup lines 182-195 / 240-254, whose min and max
attributes declare the ranges). -/
def rangeClamp (lo hi v : ℚ) : ℚ :=
  if v < lo then lo else if hi < v then hi else v

/-- Slider edit of lowPassHz: the range input (min 500, max 20000)
sanitizes the value, bind:value stores it, and the reactive statement at
lines 26-28 writes it to the live lowPassNode when one exists. -/
def setLowPassHz (c : Controller) (v : ℚ) : Controller :=
  let c1 := { c with lowPassHz := rangeClamp 500 20000 v }
  match c1.graph with
  | none => c1
  | some g => { c1 with graph := some { g with lowPassFreq := c1.lowPassHz } }

/-- Slider edit of highPassHz (range input min 20, max 5000; reactive
statement at lines 29-31). -/
def setHighPassHz (c : Controller) (v : ℚ) : Controller :=
  let c1 := { c with highPassHz := rangeClamp 20 5000 v }
  match c1.graph with
  | none => c1
  | some g => { c1 with graph := some { g with highPassFreq := c1.highPassHz } }

/-- Slider edit of gain (range input min 0, max 3; reactive statement at
lines 32-34). -/
def setGainValue (c : Controller) (v : ℚ) : Controller :=
  let c1 := { c with gain := rangeClamp 0 3 v }
  match c1.graph with
  | none => c1
  | some g => { c1 with graph := some { g with gainValue := c1.gain } }

/-- Slider edit of volume (range input min 0, max 1; reactive statement at
lines 35-37). -/
def setVolumeValue (c : Controller) (v : ℚ) : Controller :=
  let c1 := { c with volume := rangeClamp 0 1 v }
  match c1.graph with
  | none => c1
  | some g => { c1 with graph := some { g with volumeValue := c1.volume } }

/-- setupAudioGraph (lines 54-82).  `env` stands for the environment guards
at lines 55-57 (a window exists, the audio element is bound, and an
AudioContext constructor is available); when any guard fails the function
returns without building anything.  Line 58 makes a second build a no-op:
`if (audioContext) return`.  Otherwise the four stages are created carrying
the current parameter values (lines 63-75) and connected in the fixed chain
order (lines 77-81). -/
def setupAudioGraph (env : Bool) (c : Controller) : Controller :=
  if env = false then c
  else
    match c.graph with
    | some _ => c
    | none =>
      { c with graph := some ⟨c.highPassHz, c.lowPassHz, c.gain, c.volume, graphChain⟩ }

/-- The effect of `otherAudio.pause()` reached through
`document.querySelector` with an attribute selector on src (togglePlay
lines 102-105): querySelector returns the first element in document order
whose src matches, and pausing it fires its pause event, whose handler
(handlePause, lines 132-134) sets that component's isPlaying to false. -/
def pauseFirst (s : String) : List Controller → List Controller
  | [] => []
  | c :: cs =>
    if c.src = s then { c with isPlaying := false } :: cs
    else c :: pauseFirst s cs

/-- Caller-observable output of one handler run.  The component's only
failure output is `console.error` (line 110); `playbackFailed` is the
signal the specification describes and is available here so that its
absence in any run is expressible. -/
inductive Sig where
  | consoleError
  | playbackFailed
  deriving DecidableEq

/-- Which way the awaited browser calls inside togglePlay resolve:
`resumeFailed` means `audioContext.resume()` rejected inside
ensureAudioContextRunning (line 89), `playFailed` means `audio.play()`
rejected (line 107), `success` means both resolved. -/
inductive PlayOutcome where
  | resumeFailed
  | playFailed
  | success
  deriving DecidableEq

/-- A handler run: the resulting page and the outputs it produced. -/
structure StepResult where
  page : Page
  events : List Sig
  deriving DecidableEq

/-- togglePlay (lines 93-113), run to completion as one event-loop unit.
If the component is playing: `audio.pause()` (whose pause event sets
isPlaying false) then `currentlyPlaying.set(null)` (lines 94-96).
Otherwise, inside try: ensureAudioContextRunning (builds the graph when
audioContext is null, then possibly awaits resume, lines 84-91); then any
other playing audio found through the store is paused (lines 102-105); then
`await audio.play()` (its play event sets isPlaying true) and
`currentlyPlaying.set(src)` (lines 107-108).  A rejection anywhere in the
try block jumps to the catch, which only logs (lines 109-111).
This definition models a COMPLETED call: the two await suspension points
(lines 99 and 107) are not interleaving points here, so it only describes
runs in which each togglePlay resolves before the next event is processed.
An in-flight start that other events can interleave with is modelled
separately by togglePlayStart and playResolved below. -/
def togglePlay (env : Bool) (o : PlayOutcome) (p : Page) (i : Nat) : StepResult :=
  match p.controllers[i]? with
  | none => ⟨p, []⟩
  | some c =>
    if c.isPlaying then
      ⟨⟨updateAt i (fun x => { x with isPlaying := false }) p.controllers, none⟩, []⟩
    else
      let l1 := updateAt i (setupAudioGraph env) p.controllers
      if o = PlayOutcome.resumeFailed then
        ⟨⟨l1, p.currentlyPlaying⟩, [Sig.consoleError]⟩
      else
        let l2 :=
          match p.currentlyPlaying with
          | some s => if s ≠ c.src then pauseFirst s l1 else l1
          | none => l1
        if o = PlayOutcome.playFailed then
          ⟨⟨l2, p.currentlyPlaying⟩, [Sig.consoleError]⟩
        else
          ⟨⟨updateAt i (fun x => { x with isPlaying := true }) l2, some c.src⟩, []⟩

/-- handleEnded (lines 123-126): isPlaying := false and the slot is set to
null unconditionally, with no check that this component still holds it. -/
def handleEnded (p : Page) (i : Nat) : Page :=
  match p.controllers[i]? with
  | none => p
  | some _ =>
    ⟨updateAt i (fun x => { x with isPlaying := false }) p.controllers, none⟩

/-- handleLoadedMetadata (lines 119-121): records the reported duration. -/
def handleLoadedMetadata (p : Page) (i : Nat) (d : ℚ) : Page :=
  ⟨updateAt i (fun x => { x with duration := d }) p.controllers, p.currentlyPlaying⟩

/-- handleTimeUpdate (lines 115-117): records the element position. -/
def handleTimeUpdate (p : Page) (i : Nat) (t : ℚ) : Page :=
  ⟨updateAt i (fun x => { x with currentTime := t }) p.controllers, p.currentlyPlaying⟩

/-- seek (lines 136-141): a click on the progress bar at viewport
coordinate `clientX`, on a bar whose bounding rectangle starts at
`rectLeft` with width `rectWidth`, sets the element position to
percent times duration, where percent is (clientX - rectLeft) / rectWidth.
No clamp and no queue appear in the source. -/
def seekClick (p : Page) (i : Nat) (clientX rectLeft rectWidth : ℚ) : Page :=
  ⟨updateAt i
      (fun x => { x with currentTime := (clientX - rectLeft) / rectWidth * x.duration })
      p.controllers,
   p.currentlyPlaying⟩

/-- The onDestroy body (lines 43-52): disconnect every non-null node and
close the context.  The node variables and audioContext stay non-null, so
the graph handle survives with its connections gone. -/
def onDestroyBody (c : Controller) : Controller :=
  match c.graph with
  | none => c
  | some g => { c with graph := some { g with connections := [] }, contextClosed := true }

/-- Unmounting the component: Svelte runs onDestroy.  No flag consulted by
togglePlay is set anywhere in the script. -/
def destroyController (p : Page) (i : Nat) : Page :=
  ⟨updateAt i (fun x => { onDestroyBody x with destroyed := true }) p.controllers,
   p.currentlyPlaying⟩

/-- The synchronous prefix of togglePlay's play branch, up to and including
the moment `audio.play()` is issued (lines 98-107): ensureAudioContextRunning
builds the graph, the other playing audio is paused through the store.  The
continuation after the play promise resolves is `playResolved`. -/
def togglePlayStart (env : Bool) (p : Page) (i : Nat) : Page :=
  match p.controllers[i]? with
  | none => p
  | some c =>
    if c.isPlaying then p
    else
      let l1 := updateAt i (setupAudioGraph env) p.controllers
      match p.currentlyPlaying with
      | some s => if s ≠ c.src then ⟨pauseFirst s l1, p.currentlyPlaying⟩ else ⟨l1, p.currentlyPlaying⟩
      | none => ⟨l1, p.currentlyPlaying⟩

/-- The continuation of togglePlay once `await audio.play()` resolves
(lines 107-108): the play event handler sets isPlaying true (lines 128-130)
and then `currentlyPlaying.set(src)` runs.  The source consults no
cancellation or destroyed flag here. -/
def playResolved (p : Page) (i : Nat) : Page :=
  match p.controllers[i]? with
  | none => p
  | some c =>
    ⟨updateAt i (fun x => { x with isPlaying := true }) p.controllers, some c.src⟩

/-- The page-level events a run can contain. -/
inductive Event where
  | toggle (i : Nat) (o : PlayOutcome)
  | ended (i : Nat)
  | loadedMetadata (i : Nat) (d : ℚ)
  | timeUpdate (i : Nat) (t : ℚ)
  | seek (i : Nat) (clientX rectLeft rectWidth : ℚ)
  | editLowPass (i : Nat) (v : ℚ)
  | editHighPass (i : Nat) (v : ℚ)
  | editGain (i : Nat) (v : ℚ)
  | editVolume (i : Nat) (v : ℚ)
  | destroy (i : Nat)
  deriving DecidableEq

/-- One event-loop step over completed handler executions (each togglePlay
resolves its awaits before the next event runs; in-flight overlap is
modelled by togglePlayStart and playResolved instead).  The ended case is
restricted to a controller whose isPlaying flag is still set — the natural
end of playback of the element that was playing; the raw unguarded handler
is handleEnded above, which is used directly wherever releases by a
non-holder are at issue. -/
def step (env : Bool) (p : Page) : Event → Page
  | Event.toggle i o => (togglePlay env o p i).page
  | Event.ended i =>
    match p.controllers[i]? with
    | some c => if c.isPlaying then handleEnded p i else p
    | none => p
  | Event.loadedMetadata i d => handleLoadedMetadata p i d
  | Event.timeUpdate i t => handleTimeUpdate p i t
  | Event.seek i x l w => seekClick p i x l w
  | Event.editLowPass i v => ⟨updateAt i (fun c => setLowPassHz c v) p.controllers, p.currentlyPlaying⟩
  | Event.editHighPass i v => ⟨updateAt i (fun c => setHighPassHz c v) p.controllers, p.currentlyPlaying⟩
  | Event.editGain i v => ⟨updateAt i (fun c => setGainValue c v) p.controllers, p.currentlyPlaying⟩
  | Event.editVolume i v => ⟨updateAt i (fun c => setVolumeValue c v) p.controllers, p.currentlyPlaying⟩
  | Event.destroy i => destroyController p i

/-- A whole run of completed, non-overlapping handler executions. -/
def run (env : Bool) (p : Page) : List Event → Page
  | [] => p
  | e :: es => run env (step env p e) es

/-- Number of controllers whose isPlaying flag is set. -/
def countPlaying (p : Page) : Nat :=
  (p.controllers.filter (fun c => c.isPlaying)).length

/-- Coherence between the store and the per-component flags: every playing
controller is the one registered in the currentlyPlaying store. -/
def Inv (p : Page) : Prop :=
  ∀ c ∈ p.controllers, c.isPlaying = true → p.currentlyPlaying = some c.src

/-- The mounted players address pairwise different sources. -/
def SrcsNodup (p : Page) : Prop :=
  (p.controllers.map (fun c => c.src)).Nodup

instance (p : Page) : Decidable (Inv p) := by
  unfold Inv; infer_instance

instance (p : Page) : Decidable (SrcsNodup p) := by
  unfold SrcsNodup; infer_instance

/-- The value space of the JavaScript number passed to formatTime: NaN, the
two infinities, or a finite value (modelled as a rational). -/
inductive JSNum where
  | nan
  | posInf
  | negInf
  | finite (q : ℚ)
  deriving DecidableEq

/-- Math.trunc semantics on finite values: rounding toward zero. -/
def jsTrunc (q : ℚ) : Int :=
  if q < 0 then Int.ceil q else Int.floor q

/-- The JavaScript remainder operator on finite operands: the result carries
the sign of the dividend, a percent b = a - b * trunc(a / b). -/
def jsRem (a b : ℚ) : ℚ :=
  a - b * (jsTrunc (a / b) : ℚ)

/-- String.prototype.padStart(2, zero): prepend the zero character until the
length is at least 2. -/
def padStart2 (s : String) : String :=
  String.mk (List.replicate (2 - s.length) '0') ++ s

/-- formatTime (lines 143-148 of the component with filters, identically
lines 58-63 of AudioPlayer.svelte): a non-finite input returns the string
0:00; a finite input of q seconds returns Math.floor(q / 60), a colon, and
Math.floor(q percent 60) left-padded with the zero character to two
characters. -/
def formatTime (seconds : JSNum) : String :=
  match seconds with
  | JSNum.finite q =>
    toString (Int.floor (q / 60)) ++ ":" ++ padStart2 (toString (Int.floor (jsRem q 60)))
  | _ => "0:00"

/-- A freshly mounted controller that is currently playing. -/
def playingController (s : String) : Controller :=
  { mkController s with isPlaying := true }

/-- Two idle players with distinct sources, empty slot. -/
def pageTwo : Page :=
  ⟨[mkController "a.wav", mkController "b.wav"], none⟩

/-- One idle player, empty slot. -/
def pageOne : Page :=
  ⟨[mkController "a.wav"], none⟩

/-- Player 0 for a.wav is playing while the slot is held by the different
source b.wav: the configuration the stale-release guard of the
specification is about. -/
def pageStale : Page :=
  ⟨[playingController "a.wav"], some "b.wav"⟩

/-- Player 0 for a.wav is playing and holds the slot; player 1 for b.wav is
idle. -/
def pageHeld : Page :=
  ⟨[playingController "a.wav", mkController "b.wav"], some "a.wav"⟩

/-! ### Helper lemmas about updateAt and pauseFirst -/

theorem updateAt_nil (i : Nat) (f : Controller → Controller) : updateAt i f [] = [] := by
  cases i <;> rfl

theorem updateAt_zero (f : Controller → Controller) (c : Controller) (cs : List Controller) :
    updateAt 0 f (c :: cs) = f c :: cs := rfl

theorem updateAt_succ (n : Nat) (f : Controller → Controller) (c : Controller)
    (cs : List Controller) : updateAt (n + 1) f (c :: cs) = c :: updateAt n f cs := rfl

theorem map_updateAt {α : Type} (g : Controller → α) (f : Controller → Controller)
    (hf : ∀ x, g (f x) = g x) (i : Nat) (l : List Controller) :
    (updateAt i f l).map g = l.map g := by
  induction l generalizing i with
  | nil => rw [updateAt_nil]
  | cons c cs ih =>
    cases i with
    | zero => simp [updateAt_zero, hf]
    | succ n => simp [updateAt_succ, ih n]

theorem length_updateAt (i : Nat) (f : Controller → Controller) (l : List Controller) :
    (updateAt i f l).length = l.length := by
  induction l generalizing i with
  | nil => rw [updateAt_nil]
  | cons c cs ih =>
    cases i with
    | zero => rfl
    | succ n => simp [updateAt_succ, ih n]

theorem getElem?_updateAt (i : Nat) (f : Controller → Controller) (l : List Controller) :
    (updateAt i f l)[i]? = (l[i]?).map f := by
  induction l generalizing i with
  | nil => rw [updateAt_nil]; cases i <;> rfl
  | cons c cs ih =>
    cases i with
    | zero => simp [updateAt_zero]
    | succ n => simpa [updateAt_succ] using ih n

theorem mem_updateAt {c' : Controller} {i : Nat} {f : Controller → Controller}
    {l : List Controller} (h : c' ∈ updateAt i f l) :
    (∃ c, l[i]? = some c ∧ c' = f c) ∨ ∃ j, j ≠ i ∧ l[j]? = some c' := by
  induction l generalizing i with
  | nil => rw [updateAt_nil] at h; simp at h
  | cons c cs ih =>
    cases i with
    | zero =>
      rw [updateAt_zero] at h
      rcases List.mem_cons.1 h with h | h
      · exact Or.inl ⟨c, by simp, h⟩
      · rcases List.mem_iff_getElem?.1 h with ⟨k, hk⟩
        exact Or.inr ⟨k + 1, Nat.succ_ne_zero k, by simpa using hk⟩
    | succ n =>
      rw [updateAt_succ] at h
      rcases List.mem_cons.1 h with h | h
      · exact Or.inr ⟨0, by omega, by simp [h]⟩
      · rcases ih h with ⟨c0, hc0, he⟩ | ⟨j, hj, hget⟩
        · exact Or.inl ⟨c0, by simpa using hc0, he⟩
        · exact Or.inr ⟨j + 1, by omega, by simpa using hget⟩

theorem map_src_pauseFirst (s : String) (l : List Controller) :
    (pauseFirst s l).map (fun c => c.src) = l.map (fun c => c.src) := by
  induction l with
  | nil => rfl
  | cons c cs ih =>
    by_cases h : c.src = s
    · simp [pauseFirst, h]
    · simp [pauseFirst, h, ih]

theorem mem_pauseFirst {s : String} {l : List Controller} {x : Controller}
    (h : x ∈ pauseFirst s l) :
    x ∈ l ∨ ∃ y ∈ l, y.src = s ∧ x = { y with isPlaying := false } := by
  induction l with
  | nil => simp [pauseFirst] at h
  | cons c cs ih =>
    by_cases hc : c.src = s
    · rw [pauseFirst, if_pos hc] at h
      rcases List.mem_cons.1 h with h | h
      · exact Or.inr ⟨c, List.mem_cons_self c cs, hc, h⟩
      · exact Or.inl (List.mem_cons_of_mem c h)
    · rw [pauseFirst, if_neg hc] at h
      rcases List.mem_cons.1 h with h | h
      · exact Or.inl (h ▸ List.mem_cons_self c cs)
      · rcases ih h with h | ⟨y, hy, hys, hxy⟩
        · exact Or.inl (List.mem_cons_of_mem c h)
        · exact Or.inr ⟨y, List.mem_cons_of_mem c hy, hys, hxy⟩

theorem getElem?_pauseFirst {s : String} {l : List Controller} {j : Nat} {x : Controller}
    (h : (pauseFirst s l)[j]? = some x) :
    ∃ y, l[j]? = some y ∧ (x = y ∨ (y.src = s ∧ x = { y with isPlaying := false })) := by
  induction l generalizing j with
  | nil => simp [pauseFirst] at h
  | cons c cs ih =>
    by_cases hc : c.src = s
    · rw [pauseFirst, if_pos hc] at h
      cases j with
      | zero =>
        refine ⟨c, by simp, Or.inr ⟨hc, ?_⟩⟩
        simpa using h.symm
      | succ n => exact ⟨x, by simpa using h, Or.inl rfl⟩
    · rw [pauseFirst, if_neg hc] at h
      cases j with
      | zero => exact ⟨c, by simp, Or.inl (by simpa using h.symm)⟩
      | succ n =>
        rcases ih (by simpa using h) with ⟨y, hy, hor⟩
        exact ⟨y, by simpa using hy, hor⟩

theorem pauseFirst_not_playing {s : String} {l : List Controller}
    (hs : ∀ c ∈ l, c.isPlaying = true → c.src = s)
    (hn : (l.map (fun c => c.src)).Nodup) :
    ∀ c ∈ pauseFirst s l, c.isPlaying = false := by
  induction l with
  | nil => simp [pauseFirst]
  | cons c cs ih =>
    have hn' : (∀ x ∈ cs, ¬x.src = c.src) ∧ (cs.map (fun c => c.src)).Nodup := by
      simpa using hn
    by_cases hc : c.src = s
    · intro x hx
      rw [pauseFirst, if_pos hc] at hx
      rcases List.mem_cons.1 hx with rfl | hx
      · rfl
      · cases hxp : x.isPlaying with
        | false => rfl
        | true =>
          exfalso
          have hxs : x.src = s := hs x (List.mem_cons_of_mem c hx) hxp
          exact hn'.1 x hx (by rw [hxs, hc])
    · intro x hx
      rw [pauseFirst, if_neg hc] at hx
      rcases List.mem_cons.1 hx with rfl | hx
      · cases hxp : x.isPlaying with
        | false => rfl
        | true => exact absurd (hs x (List.mem_cons_self x cs) hxp) hc
      · exact ih (fun y hy hp => hs y (List.mem_cons_of_mem c hy) hp) hn'.2 x hx

theorem getElem?_src_inj {l : List Controller}
    (hN : (l.map (fun c => c.src)).Nodup) {i j : Nat} {a b : Controller}
    (ha : l[i]? = some a) (hb : l[j]? = some b) (hs : a.src = b.src) : i = j := by
  have hi : i < l.length := by
    by_contra hlt
    rw [List.getElem?_eq_none_iff.2 (by omega)] at ha
    exact Option.noConfusion ha
  refine List.getElem?_inj (by simpa using hi) hN ?_
  rw [List.getElem?_map, List.getElem?_map, ha, hb]
  simp [hs]

/-! ### Field preservation of the per-controller operations -/

theorem setupAudioGraph_src (env : Bool) (x : Controller) :
    (setupAudioGraph env x).src = x.src := by
  by_cases he : env = false
  · simp [setupAudioGraph, he]
  · cases hg : x.graph <;> simp [setupAudioGraph, he, hg]

theorem setupAudioGraph_isPlaying (env : Bool) (x : Controller) :
    (setupAudioGraph env x).isPlaying = x.isPlaying := by
  by_cases he : env = false
  · simp [setupAudioGraph, he]
  · cases hg : x.graph <;> simp [setupAudioGraph, he, hg]

theorem setLowPassHz_src (x : Controller) (v : ℚ) : (setLowPassHz x v).src = x.src := by
  cases hg : x.graph <;> simp [setLowPassHz, hg]

theorem setLowPassHz_isPlaying (x : Controller) (v : ℚ) :
    (setLowPassHz x v).isPlaying = x.isPlaying := by
  cases hg : x.graph <;> simp [setLowPassHz, hg]

theorem setHighPassHz_src (x : Controller) (v : ℚ) : (setHighPassHz x v).src = x.src := by
  cases hg : x.graph <;> simp [setHighPassHz, hg]

theorem setHighPassHz_isPlaying (x : Controller) (v : ℚ) :
    (setHighPassHz x v).isPlaying = x.isPlaying := by
  cases hg : x.graph <;> simp [setHighPassHz, hg]

theorem setGainValue_src (x : Controller) (v : ℚ) : (setGainValue x v).src = x.src := by
  cases hg : x.graph <;> simp [setGainValue, hg]

theorem setGainValue_isPlaying (x : Controller) (v : ℚ) :
    (setGainValue x v).isPlaying = x.isPlaying := by
  cases hg : x.graph <;> simp [setGainValue, hg]

theorem setVolumeValue_src (x : Controller) (v : ℚ) : (setVolumeValue x v).src = x.src := by
  cases hg : x.graph <;> simp [setVolumeValue, hg]

theorem setVolumeValue_isPlaying (x : Controller) (v : ℚ) :
    (setVolumeValue x v).isPlaying = x.isPlaying := by
  cases hg : x.graph <;> simp [setVolumeValue, hg]

theorem onDestroyBody_src (x : Controller) : (onDestroyBody x).src = x.src := by
  cases hg : x.graph <;> simp [onDestroyBody, hg]

theorem onDestroyBody_isPlaying (x : Controller) :
    (onDestroyBody x).isPlaying = x.isPlaying := by
  cases hg : x.graph <;> simp [onDestroyBody, hg]

/-! ### Preservation of the exclusivity invariant by every handler -/

theorem inv_updateAt_preserve {p : Page} {i : Nat} {f : Controller → Controller}
    (hsrc : ∀ x, (f x).src = x.src) (hpl : ∀ x, (f x).isPlaying = x.isPlaying)
    (hI : Inv p) : Inv ⟨updateAt i f p.controllers, p.currentlyPlaying⟩ := by
  intro c' hc' hp
  rcases mem_updateAt hc' with ⟨c0, hc0, rfl⟩ | ⟨j, hj, hg⟩
  · rw [hpl] at hp
    rw [hsrc]
    exact hI c0 (List.getElem?_mem hc0) hp
  · exact hI c' (List.getElem?_mem hg) hp

theorem inv_after_setup {p : Page} {i : Nat} (env : Bool) (hI : Inv p) :
    ∀ c' ∈ updateAt i (setupAudioGraph env) p.controllers, c'.isPlaying = true →
      p.currentlyPlaying = some c'.src :=
  inv_updateAt_preserve (setupAudioGraph_src env) (setupAudioGraph_isPlaying env) hI

theorem none_playing_after_clear {p : Page} {i : Nat} {c : Controller}
    (hI : Inv p) (hN : SrcsNodup p) (hg : p.controllers[i]? = some c)
    (hp : c.isPlaying = true) :
    ∀ c' ∈ updateAt i (fun x => { x with isPlaying := false }) p.controllers,
      c'.isPlaying = false := by
  intro c' hc'
  rcases mem_updateAt hc' with ⟨c0, hc0, rfl⟩ | ⟨j, hj, hgj⟩
  · rfl
  · cases hxp : c'.isPlaying with
    | false => rfl
    | true =>
      exfalso
      have h1 := hI c' (List.getElem?_mem hgj) hxp
      have h2 := hI c (List.getElem?_mem hg) hp
      have hsrc : c'.src = c.src := by
        rw [h1] at h2
        injection h2
      exact hj (getElem?_src_inj hN hgj hg hsrc)

theorem srcs_togglePlay (env : Bool) (o : PlayOutcome) (p : Page) (i : Nat) :
    (togglePlay env o p i).page.controllers.map (fun c => c.src)
      = p.controllers.map (fun c => c.src) := by
  have hup : ∀ l : List Controller,
      (updateAt i (setupAudioGraph env) l).map (fun c => c.src)
        = l.map (fun c => c.src) :=
    fun l => map_updateAt _ _ (setupAudioGraph_src env) i l
  have htru : ∀ l : List Controller,
      (updateAt i (fun x => { x with isPlaying := true }) l).map (fun c => c.src)
        = l.map (fun c => c.src) :=
    fun l => map_updateAt (fun c => c.src)
      (fun x => { x with isPlaying := true }) (fun _ => rfl) i l
  have hfls : ∀ l : List Controller,
      (updateAt i (fun x => { x with isPlaying := false }) l).map (fun c => c.src)
        = l.map (fun c => c.src) :=
    fun l => map_updateAt (fun c => c.src)
      (fun x => { x with isPlaying := false }) (fun _ => rfl) i l
  cases hg : p.controllers[i]? with
  | none => simp [togglePlay, hg]
  | some c =>
    by_cases hp : c.isPlaying
    · simp [togglePlay, hg, hp, hfls]
    · cases o with
      | resumeFailed => simp [togglePlay, hg, hp, hup]
      | playFailed =>
        cases hcp : p.currentlyPlaying with
        | none => simp [togglePlay, hg, hp, hcp, hup]
        | some s =>
          by_cases hs : s = c.src
          · simp [togglePlay, hg, hp, hcp, hs, hup]
          · simp [togglePlay, hg, hp, hcp, hs, hup, map_src_pauseFirst]
      | success =>
        cases hcp : p.currentlyPlaying with
        | none => simp [togglePlay, hg, hp, hcp, hup, htru]
        | some s =>
          by_cases hs : s = c.src
          · simp [togglePlay, hg, hp, hcp, hs, hup, htru]
          · simp [togglePlay, hg, hp, hcp, hs, hup, htru, map_src_pauseFirst]

theorem srcs_nodup_l1 {p : Page} (env : Bool) (i : Nat) (hN : SrcsNodup p) :
    ((updateAt i (setupAudioGraph env) p.controllers).map (fun c => c.src)).Nodup := by
  rw [map_updateAt _ _ (setupAudioGraph_src env)]
  exact hN

theorem inv_togglePlay (env : Bool) (o : PlayOutcome) (p : Page) (i : Nat)
    (hI : Inv p) (hN : SrcsNodup p) : Inv (togglePlay env o p i).page := by
  cases hg : p.controllers[i]? with
  | none => simpa [togglePlay, hg] using hI
  | some c =>
    by_cases hp : c.isPlaying
    · have hred : (togglePlay env o p i).page
          = ⟨updateAt i (fun x => { x with isPlaying := false }) p.controllers, none⟩ := by
        simp [togglePlay, hg, hp]
      rw [hred]
      have hclear := none_playing_after_clear hI hN hg hp
      intro c' hc' hpc'
      rw [hclear c' hc'] at hpc'
      cases hpc'
    · have hInv1 : Inv ⟨updateAt i (setupAudioGraph env) p.controllers, p.currentlyPlaying⟩ :=
        inv_updateAt_preserve (setupAudioGraph_src env) (setupAudioGraph_isPlaying env) hI
      have hgl1 : (updateAt i (setupAudioGraph env) p.controllers)[i]?
          = some (setupAudioGraph env c) := by
        rw [getElem?_updateAt, hg]
        rfl
      cases o with
      | resumeFailed =>
        have hred : (togglePlay env PlayOutcome.resumeFailed p i).page
            = ⟨updateAt i (setupAudioGraph env) p.controllers, p.currentlyPlaying⟩ := by
          simp [togglePlay, hg, hp]
        rw [hred]
        exact hInv1
      | playFailed =>
        cases hcp : p.currentlyPlaying with
        | none =>
          have hred : (togglePlay env PlayOutcome.playFailed p i).page
              = ⟨updateAt i (setupAudioGraph env) p.controllers, p.currentlyPlaying⟩ := by
            simp [togglePlay, hg, hp, hcp]
          rw [hred]
          exact hInv1
        | some s =>
          by_cases hs : s = c.src
          · have hred : (togglePlay env PlayOutcome.playFailed p i).page
                = ⟨updateAt i (setupAudioGraph env) p.controllers, p.currentlyPlaying⟩ := by
              simp [togglePlay, hg, hp, hcp, hs]
            rw [hred]
            exact hInv1
          · have hred : (togglePlay env PlayOutcome.playFailed p i).page
                = ⟨pauseFirst s (updateAt i (setupAudioGraph env) p.controllers),
                    p.currentlyPlaying⟩ := by
              simp [togglePlay, hg, hp, hcp, hs]
            rw [hred]
            intro c' hc' hpc'
            rcases mem_pauseFirst hc' with hmem | ⟨y, hy, hys, rfl⟩
            · exact hInv1 c' hmem hpc'
            · cases hpc'
      | success =>
        cases hcp : p.currentlyPlaying with
        | none =>
          have hred : (togglePlay env PlayOutcome.success p i).page
              = ⟨updateAt i (fun x => { x with isPlaying := true })
                    (updateAt i (setupAudioGraph env) p.controllers), some c.src⟩ := by
            simp [togglePlay, hg, hp, hcp]
          rw [hred]
          intro c' hc' hpc'
          rcases mem_updateAt hc' with ⟨x, hx, rfl⟩ | ⟨j, hj, hgj⟩
          · rw [hgl1] at hx
            injection hx with hx
            subst hx
            rw [setupAudioGraph_src]
          · have := hInv1 c' (List.getElem?_mem hgj) hpc'
            rw [hcp] at this
            cases this
        | some s =>
          by_cases hs : s = c.src
          · have hred : (togglePlay env PlayOutcome.success p i).page
                = ⟨updateAt i (fun x => { x with isPlaying := true })
                      (updateAt i (setupAudioGraph env) p.controllers), some c.src⟩ := by
              simp [togglePlay, hg, hp, hcp, hs]
            rw [hred]
            intro c' hc' hpc'
            rcases mem_updateAt hc' with ⟨x, hx, rfl⟩ | ⟨j, hj, hgj⟩
            · rw [hgl1] at hx
              injection hx with hx
              subst hx
              rw [setupAudioGraph_src]
            · have := hInv1 c' (List.getElem?_mem hgj) hpc'
              rw [hcp] at this
              injection this with this
              rw [← this, hs]
          · have hred : (togglePlay env PlayOutcome.success p i).page
                = ⟨updateAt i (fun x => { x with isPlaying := true })
                      (pauseFirst s (updateAt i (setupAudioGraph env) p.controllers)),
                    some c.src⟩ := by
              simp [togglePlay, hg, hp, hcp, hs]
            rw [hred]
            intro c' hc' hpc'
            have hnopl : ∀ z ∈ pauseFirst s (updateAt i (setupAudioGraph env) p.controllers),
                z.isPlaying = false := by
              refine pauseFirst_not_playing ?_ (srcs_nodup_l1 env i hN)
              intro z hz hzp
              have := hInv1 z hz hzp
              rw [hcp] at this
              injection this with this
              exact this.symm
            rcases mem_updateAt hc' with ⟨x, hx, rfl⟩ | ⟨j, hj, hgj⟩
            · rcases getElem?_pauseFirst hx with ⟨y, hyg, hor⟩
              rw [hgl1] at hyg
              injection hyg with hyg
              subst hyg
              have hxsrc : x.src = c.src := by
                rcases hor with rfl | ⟨hy1, rfl⟩
                · exact setupAudioGraph_src env c
                · exact setupAudioGraph_src env c
              simp [hxsrc]
            · have := hnopl c' (List.getElem?_mem hgj)
              rw [this] at hpc'
              cases hpc'

theorem srcs_step (env : Bool) (p : Page) (e : Event) :
    (step env p e).controllers.map (fun c => c.src)
      = p.controllers.map (fun c => c.src) := by
  cases e with
  | toggle i o => exact srcs_togglePlay env o p i
  | ended i =>
    cases hg : p.controllers[i]? with
    | none => simp [step, hg]
    | some c =>
      by_cases hp : c.isPlaying
      · simp [step, hg, hp, handleEnded,
          map_updateAt (fun c => c.src) (fun x => { x with isPlaying := false })
            (fun _ => rfl)]
      · simp [step, hg, hp]
  | loadedMetadata i d =>
    exact map_updateAt (fun c => c.src) (fun x => { x with duration := d }) (fun _ => rfl) i _
  | timeUpdate i t =>
    exact map_updateAt (fun c => c.src) (fun x => { x with currentTime := t }) (fun _ => rfl) i _
  | seek i x l w =>
    exact map_updateAt (fun c => c.src)
      (fun c0 => { c0 with currentTime := (x - l) / w * c0.duration }) (fun _ => rfl) i _
  | editLowPass i v =>
    exact map_updateAt (fun c => c.src) (fun c0 => setLowPassHz c0 v)
      (fun x => setLowPassHz_src x v) i _
  | editHighPass i v =>
    exact map_updateAt (fun c => c.src) (fun c0 => setHighPassHz c0 v)
      (fun x => setHighPassHz_src x v) i _
  | editGain i v =>
    exact map_updateAt (fun c => c.src) (fun c0 => setGainValue c0 v)
      (fun x => setGainValue_src x v) i _
  | editVolume i v =>
    exact map_updateAt (fun c => c.src) (fun c0 => setVolumeValue c0 v)
      (fun x => setVolumeValue_src x v) i _
  | destroy i =>
    exact map_updateAt (fun c => c.src)
      (fun c0 => { onDestroyBody c0 with destroyed := true })
      (fun x => onDestroyBody_src x) i _

theorem inv_step (env : Bool) (p : Page) (e : Event) (hI : Inv p) (hN : SrcsNodup p) :
    Inv (step env p e) := by
  cases e with
  | toggle i o => exact inv_togglePlay env o p i hI hN
  | ended i =>
    cases hg : p.controllers[i]? with
    | none => simpa [step, hg] using hI
    | some c =>
      by_cases hp : c.isPlaying
      · have hred : step env p (Event.ended i)
            = ⟨updateAt i (fun x => { x with isPlaying := false }) p.controllers, none⟩ := by
          simp [step, hg, hp, handleEnded]
        rw [hred]
        have hclear := none_playing_after_clear hI hN hg hp
        intro c' hc' hpc'
        rw [hclear c' hc'] at hpc'
        cases hpc'
      · simpa [step, hg, hp] using hI
  | loadedMetadata i d =>
    exact inv_updateAt_preserve (fun _ => rfl) (fun _ => rfl) hI
  | timeUpdate i t =>
    exact inv_updateAt_preserve (fun _ => rfl) (fun _ => rfl) hI
  | seek i x l w =>
    exact inv_updateAt_preserve (fun _ => rfl) (fun _ => rfl) hI
  | editLowPass i v =>
    exact inv_updateAt_preserve (fun x => setLowPassHz_src x v)
      (fun x => setLowPassHz_isPlaying x v) hI
  | editHighPass i v =>
    exact inv_updateAt_preserve (fun x => setHighPassHz_src x v)
      (fun x => setHighPassHz_isPlaying x v) hI
  | editGain i v =>
    exact inv_updateAt_preserve (fun x => setGainValue_src x v)
      (fun x => setGainValue_isPlaying x v) hI
  | editVolume i v =>
    exact inv_updateAt_preserve (fun x => setVolumeValue_src x v)
      (fun x => setVolumeValue_isPlaying x v) hI
  | destroy i =>
    exact inv_updateAt_preserve (fun x => onDestroyBody_src x)
      (fun x => onDestroyBody_isPlaying x) hI

theorem good_run (env : Bool) (evs : List Event) (p : Page)
    (hI : Inv p) (hN : SrcsNodup p) :
    Inv (run env p evs) ∧ SrcsNodup (run env p evs) := by
  induction evs generalizing p with
  | nil => exact ⟨hI, hN⟩
  | cons e es ih =>
    have h1 := inv_step env p e hI hN
    have h2 : SrcsNodup (step env p e) := by
      unfold SrcsNodup
      rw [srcs_step]
      exact hN
    exact ih (step env p e) h1 h2

theorem countPlaying_le_one_aux (l : List Controller) (slot : Option String)
    (hI : ∀ c ∈ l, c.isPlaying = true → slot = some c.src)
    (hN : (l.map (fun c => c.src)).Nodup) :
    (l.filter (fun c => c.isPlaying)).length ≤ 1 := by
  induction l with
  | nil => simp
  | cons c cs ih =>
    have hn' : (∀ x ∈ cs, ¬x.src = c.src) ∧ (cs.map (fun c => c.src)).Nodup := by
      simpa using hN
    cases hp : c.isPlaying with
    | false =>
      rw [List.filter_cons_of_neg (by simp [hp])]
      exact ih (fun x hx => hI x (List.mem_cons_of_mem c hx)) hn'.2
    | true =>
      rw [List.filter_cons_of_pos (by simp [hp])]
      have hcs : cs.filter (fun c => c.isPlaying) = [] := by
        rw [List.filter_eq_nil_iff]
        intro x hx hxp
        have h1 := hI x (List.mem_cons_of_mem c hx) (by simpa using hxp)
        have h2 := hI c (List.mem_cons_self c cs) hp
        rw [h2] at h1
        injection h1 with h1
        exact hn'.1 x hx h1.symm
      simp [hcs]

theorem countPlaying_le_one {p : Page} (hI : Inv p) (hN : SrcsNodup p) :
    countPlaying p ≤ 1 :=
  countPlaying_le_one_aux p.controllers p.currentlyPlaying hI hN

theorem getElem?_updateAt_ne (i j : Nat) (h : j ≠ i) (f : Controller → Controller)
    (l : List Controller) : (updateAt i f l)[j]? = l[j]? := by
  induction l generalizing i j with
  | nil => rw [updateAt_nil]
  | cons c cs ih =>
    cases i with
    | zero =>
      cases j with
      | zero => exact absurd rfl h
      | succ m => simp [updateAt_zero]
    | succ n =>
      cases j with
      | zero => simp [updateAt_succ]
      | succ m =>
        rw [updateAt_succ]
        simpa using ih n m (by omega)

theorem updateAt_true_playing {L : List Controller} {i : Nat} {c3 : Controller}
    (h : (updateAt i (fun x => { x with isPlaying := true }) L)[i]? = some c3) :
    c3.isPlaying = true := by
  rw [getElem?_updateAt] at h
  cases hx : L[i]? with
  | none => rw [hx] at h; cases h
  | some x =>
    rw [hx] at h
    injection h with h
    rw [← h]

theorem rangeClamp_spec (lo hi v : ℚ) (hlh : lo ≤ hi) :
    (v < lo → rangeClamp lo hi v = lo) ∧ (hi < v → rangeClamp lo hi v = hi) ∧
    (lo ≤ v → v ≤ hi → rangeClamp lo hi v = v) := by
  refine ⟨fun h => by simp [rangeClamp, h], fun h => ?_, fun h1 h2 => ?_⟩
  · rw [rangeClamp, if_neg (by linarith), if_pos h]
  · rw [rangeClamp, if_neg (by linarith), if_neg (by linarith)]

theorem setLowPassHz_stored (c : Controller) (v : ℚ) :
    (setLowPassHz c v).lowPassHz = rangeClamp 500 20000 v := by
  cases hg : c.graph <;> simp [setLowPassHz, hg]

theorem setHighPassHz_stored (c : Controller) (v : ℚ) :
    (setHighPassHz c v).highPassHz = rangeClamp 20 5000 v := by
  cases hg : c.graph <;> simp [setHighPassHz, hg]

theorem setGainValue_stored (c : Controller) (v : ℚ) :
    (setGainValue c v).gain = rangeClamp 0 3 v := by
  cases hg : c.graph <;> simp [setGainValue, hg]

theorem setVolumeValue_stored (c : Controller) (v : ℚ) :
    (setVolumeValue c v).volume = rangeClamp 0 1 v := by
  cases hg : c.graph <;> simp [setVolumeValue, hg]

theorem floor_div_sixty (q : ℚ) : Int.floor (q / 60) = Int.floor q / 60 := by
  have h60 : (0:ℚ) < 60 := by norm_num
  apply le_antisymm
  · rw [Int.le_ediv_iff_mul_le (by norm_num : (0:ℤ) < 60)]
    rw [Int.le_floor]
    push_cast
    have hfl : (Int.floor (q / 60) : ℚ) ≤ q / 60 := Int.floor_le (q / 60)
    calc (Int.floor (q / 60) : ℚ) * 60 ≤ q / 60 * 60 := by
          exact mul_le_mul_of_nonneg_right hfl (le_of_lt h60)
      _ = q := div_mul_cancel₀ q (by norm_num)
  · rw [Int.le_floor]
    rw [le_div_iff₀ h60]
    have h1 : Int.floor q / 60 * 60 ≤ Int.floor q := Int.ediv_mul_le (Int.floor q) (by norm_num)
    calc ((Int.floor q / 60 : ℤ) : ℚ) * 60 = ((Int.floor q / 60 * 60 : ℤ) : ℚ) := by push_cast; ring
      _ ≤ (Int.floor q : ℚ) := by exact_mod_cast h1
      _ ≤ q := Int.floor_le q

theorem floor_jsRem_sixty (q : ℚ) (hq : 0 ≤ q) :
    Int.floor (jsRem q 60) = Int.floor q % 60 := by
  have hnn : (0:ℚ) ≤ q / 60 := by positivity
  have htr : jsTrunc (q / 60) = Int.floor (q / 60) := by
    rw [jsTrunc, if_neg (not_lt.mpr hnn)]
  rw [jsRem, htr, floor_div_sixty]
  have hcast : q - 60 * ((Int.floor q / 60 : ℤ) : ℚ)
      = q - (((60 * (Int.floor q / 60) : ℤ)) : ℚ) := by push_cast; ring
  rw [hcast, Int.floor_sub_int, Int.emod_def]

theorem lt_length_of_getElem?_some {l : List Controller} {i : Nat} {a : Controller}
    (h : l[i]? = some a) : i < l.length := by
  by_contra hlt
  rw [List.getElem?_eq_none_iff.2 (by omega)] at h
  exact Option.noConfusion h

theorem length_pauseFirst (s : String) (l : List Controller) :
    (pauseFirst s l).length = l.length := by
  induction l with
  | nil => rfl
  | cons c cs ih => by_cases h : c.src = s <;> simp [pauseFirst, h, ih]

theorem togglePlay_success_sets_playing (env : Bool) (q : Page) (i : Nat) (cq : Controller)
    (hgq : q.controllers[i]? = some cq) (hpq : cq.isPlaying = false) :
    ∀ c3, (togglePlay env PlayOutcome.success q i).page.controllers[i]? = some c3 →
      c3.isPlaying = true := by
  intro c3 h3
  have hp' : ¬cq.isPlaying = true := by simp [hpq]
  cases hcp : q.currentlyPlaying with
  | none =>
    have hred : (togglePlay env PlayOutcome.success q i).page.controllers
        = updateAt i (fun x => { x with isPlaying := true })
            (updateAt i (setupAudioGraph env) q.controllers) := by
      simp [togglePlay, hgq, hp', hcp]
    rw [hred] at h3
    exact updateAt_true_playing h3
  | some s =>
    by_cases hs : s = cq.src
    · have hred : (togglePlay env PlayOutcome.success q i).page.controllers
          = updateAt i (fun x => { x with isPlaying := true })
              (updateAt i (setupAudioGraph env) q.controllers) := by
        simp [togglePlay, hgq, hp', hcp, hs]
      rw [hred] at h3
      exact updateAt_true_playing h3
    · have hred : (togglePlay env PlayOutcome.success q i).page.controllers
          = updateAt i (fun x => { x with isPlaying := true })
              (pauseFirst s (updateAt i (setupAudioGraph env) q.controllers)) := by
        simp [togglePlay, hgq, hp', hcp, hs]
      rw [hred] at h3
      exact updateAt_true_playing h3

theorem togglePlay_failed_state (env : Bool) (o : PlayOutcome) (p : Page) (i : Nat)
    (c : Controller) (hg : p.controllers[i]? = some c) (hp : c.isPlaying = false)
    (ho : o ≠ PlayOutcome.success) :
    (togglePlay env o p i).events = [Sig.consoleError] ∧
    (togglePlay env o p i).page.currentlyPlaying = p.currentlyPlaying ∧
    ∃ c2, (togglePlay env o p i).page.controllers[i]? = some c2 ∧ c2.isPlaying = false := by
  have hp' : ¬c.isPlaying = true := by simp [hp]
  have hl1 : (updateAt i (setupAudioGraph env) p.controllers)[i]?
      = some (setupAudioGraph env c) := by
    rw [getElem?_updateAt, hg]
    rfl
  have hsp : (setupAudioGraph env c).isPlaying = false := by
    rw [setupAudioGraph_isPlaying]
    exact hp
  cases o with
  | success => exact absurd rfl ho
  | resumeFailed =>
    have hred : togglePlay env PlayOutcome.resumeFailed p i
        = ⟨⟨updateAt i (setupAudioGraph env) p.controllers, p.currentlyPlaying⟩,
            [Sig.consoleError]⟩ := by
      simp [togglePlay, hg, hp']
    rw [hred]
    exact ⟨rfl, rfl, setupAudioGraph env c, hl1, hsp⟩
  | playFailed =>
    cases hcp : p.currentlyPlaying with
    | none =>
      have hred : togglePlay env PlayOutcome.playFailed p i
          = ⟨⟨updateAt i (setupAudioGraph env) p.controllers, none⟩,
              [Sig.consoleError]⟩ := by
        simp [togglePlay, hg, hp', hcp]
      rw [hred]
      exact ⟨rfl, rfl, setupAudioGraph env c, hl1, hsp⟩
    | some s =>
      by_cases hs : s = c.src
      · have hred : togglePlay env PlayOutcome.playFailed p i
            = ⟨⟨updateAt i (setupAudioGraph env) p.controllers, some s⟩,
                [Sig.consoleError]⟩ := by
          simp [togglePlay, hg, hp', hcp, hs]
        rw [hred]
        exact ⟨rfl, rfl, setupAudioGraph env c, hl1, hsp⟩
      · have hred : togglePlay env PlayOutcome.playFailed p i
            = ⟨⟨pauseFirst s (updateAt i (setupAudioGraph env) p.controllers), some s⟩,
                [Sig.consoleError]⟩ := by
          simp [togglePlay, hg, hp', hcp, hs]
        rw [hred]
        have hi : i < (pauseFirst s (updateAt i (setupAudioGraph env) p.controllers)).length := by
          rw [length_pauseFirst, length_updateAt]
          exact lt_length_of_getElem?_some hg
        obtain ⟨x, hx⟩ : ∃ x,
            (pauseFirst s (updateAt i (setupAudioGraph env) p.controllers))[i]? = some x := by
          rw [List.getElem?_eq_getElem hi]
          exact ⟨_, rfl⟩
        rcases getElem?_pauseFirst hx with ⟨y, hy, hor⟩
        rw [hl1] at hy
        injection hy with hy
        subst hy
        have hxp : x.isPlaying = false := by
          rcases hor with rfl | ⟨hh, rfl⟩
          · exact hsp
          · rfl
        exact ⟨rfl, rfl, x, hx, hxp⟩

theorem playing_survivor {env : Bool} {p : Page} {i j : Nat} {c c2 : Controller}
    (hg : p.controllers[i]? = some c) (hp : c.isPlaying = false)
    (h : (updateAt i (setupAudioGraph env) p.controllers)[j]? = some c2)
    (hq : c2.isPlaying = true) :
    p.controllers[j]? = some c2 := by
  by_cases hij : j = i
  · subst hij
    rw [getElem?_updateAt, hg] at h
    injection h with h
    subst h
    rw [setupAudioGraph_isPlaying] at hq
    rw [hq] at hp
    cases hp
  · rw [getElem?_updateAt_ne i j hij] at h
    exact h

/-! ### The claims -/

/-- C1 counterexample: the exclusivity claim fails on the program once the
await suspension points inside togglePlay (lines 99 and 107) are kept.
From a fresh two-player page, player 0 starts (togglePlayStart: reads the
empty store at line 102, pauses nobody, issues audio.play()), player 1
starts the same way before player 0's play promise has resolved, and then
both continuations run (playResolved: the play event sets isPlaying and
currentlyPlaying.set(src) runs, lines 107-108).  Neither attempt saw the
other in the store, so neither paused the other: both controllers end in
the Playing state simultaneously and the count of playing controllers is
2, violating the claimed at-most-one invariant at that point in time. -/
theorem claim1_cex :
    countPlaying (playResolved (playResolved
      (togglePlayStart true (togglePlayStart true pageTwo 0) 1) 0) 1) = 2 ∧
    (playResolved (playResolved
      (togglePlayStart true (togglePlayStart true pageTwo 0) 1) 0) 1).controllers.map
      (fun c => c.isPlaying) = [true, true] :=
  ⟨by decide, by decide⟩

/-- C1 amended: exclusivity holds for every run of completed play, pause and
end handler executions — when each togglePlay resolves its awaits before
the next event is processed, at most one controller is in the Playing
state at every point, provided the mounted players address pairwise
distinct sources and the shared store is coherent with the per-player
flags (both hold on a freshly mounted page, where nothing plays and the
store is empty).  When two play() attempts instead interleave across the
await suspension points at lines 99 and 107, both can read the empty store
before either registers, neither pauses the other, and two controllers end
Playing simultaneously, as the counterexample above shows — so the program
guarantees the invariant only between completed handler runs, not at every
instant. -/
theorem claim1_exclusivity (env : Bool) (p : Page) (evs : List Event)
    (hI : Inv p) (hN : SrcsNodup p) :
    countPlaying (run env p evs) ≤ 1 := by
  obtain ⟨h1, h2⟩ := good_run env evs p hI hN
  exact countPlaying_le_one h1 h2

/-- Witness for claim1_exclusivity: a concrete two-player page on which both
players are started in turn and the second then ends. -/
theorem claim1_exclusivity_witness :
    Inv pageTwo ∧ SrcsNodup pageTwo ∧
      countPlaying (run true pageTwo
        [Event.toggle 0 PlayOutcome.success, Event.toggle 1 PlayOutcome.success,
         Event.ended 1]) ≤ 1 :=
  ⟨by decide, by decide,
    claim1_exclusivity true pageTwo
      [Event.toggle 0 PlayOutcome.success, Event.toggle 1 PlayOutcome.success,
       Event.ended 1] (by decide) (by decide)⟩

/-- C2: Each filter parameter is stored clamped to the declared range of its
slider (highPassHz 20 to 5000, lowPassHz 500 to 20000, gain 0 to 3, volume 0
to 1): an in-range value is stored as given, a value beyond a bound is stored
as exactly the nearest bound, and the stored value is applied to the live
stage whenever the graph exists; no input is rejected and none faults (the
setters are total functions).  In particular lowPassHz below 500 is stored
as exactly 500 and above 20000 as exactly 20000.  The clamp is the value
sanitization of the HTML range inputs that form the component's only
parameter-set surface; the script then applies the bound variable directly
(reactive statements, lines 26 to 37). -/
theorem claim2_clamping (c : Controller) (v : ℚ) :
    ((v < 500 → (setLowPassHz c v).lowPassHz = 500) ∧
      (20000 < v → (setLowPassHz c v).lowPassHz = 20000) ∧
      (500 ≤ v → v ≤ 20000 → (setLowPassHz c v).lowPassHz = v)) ∧
    ((v < 20 → (setHighPassHz c v).highPassHz = 20) ∧
      (5000 < v → (setHighPassHz c v).highPassHz = 5000) ∧
      (20 ≤ v → v ≤ 5000 → (setHighPassHz c v).highPassHz = v)) ∧
    ((v < 0 → (setGainValue c v).gain = 0) ∧
      (3 < v → (setGainValue c v).gain = 3) ∧
      (0 ≤ v → v ≤ 3 → (setGainValue c v).gain = v)) ∧
    ((v < 0 → (setVolumeValue c v).volume = 0) ∧
      (1 < v → (setVolumeValue c v).volume = 1) ∧
      (0 ≤ v → v ≤ 1 → (setVolumeValue c v).volume = v)) ∧
    (∀ g, c.graph = some g →
      (setLowPassHz c v).graph
          = some { g with lowPassFreq := (setLowPassHz c v).lowPassHz } ∧
      (setHighPassHz c v).graph
          = some { g with highPassFreq := (setHighPassHz c v).highPassHz } ∧
      (setGainValue c v).graph
          = some { g with gainValue := (setGainValue c v).gain } ∧
      (setVolumeValue c v).graph
          = some { g with volumeValue := (setVolumeValue c v).volume }) := by
  have hl := rangeClamp_spec 500 20000 v (by norm_num)
  have hh := rangeClamp_spec 20 5000 v (by norm_num)
  have hg3 := rangeClamp_spec 0 3 v (by norm_num)
  have hv1 := rangeClamp_spec 0 1 v (by norm_num)
  refine ⟨⟨?_, ?_, ?_⟩, ⟨?_, ?_, ?_⟩, ⟨?_, ?_, ?_⟩, ⟨?_, ?_, ?_⟩, ?_⟩
  · intro h; rw [setLowPassHz_stored, hl.1 h]
  · intro h; rw [setLowPassHz_stored, hl.2.1 h]
  · intro h1 h2; rw [setLowPassHz_stored, hl.2.2 h1 h2]
  · intro h; rw [setHighPassHz_stored, hh.1 h]
  · intro h; rw [setHighPassHz_stored, hh.2.1 h]
  · intro h1 h2; rw [setHighPassHz_stored, hh.2.2 h1 h2]
  · intro h; rw [setGainValue_stored, hg3.1 h]
  · intro h; rw [setGainValue_stored, hg3.2.1 h]
  · intro h1 h2; rw [setGainValue_stored, hg3.2.2 h1 h2]
  · intro h; rw [setVolumeValue_stored, hv1.1 h]
  · intro h; rw [setVolumeValue_stored, hv1.2.1 h]
  · intro h1 h2; rw [setVolumeValue_stored, hv1.2.2 h1 h2]
  · intro g hgr
    refine ⟨?_, ?_, ?_, ?_⟩ <;>
      simp [setLowPassHz, setHighPassHz, setGainValue, setVolumeValue, hgr]

/-- Witness for claim2_clamping: a lowPassHz edit of 100 is stored as exactly
500 and one of 30000 as exactly 20000. -/
theorem claim2_clamping_witness :
    (setLowPassHz (mkController "a.wav") 100).lowPassHz = 500 ∧
    (setLowPassHz (mkController "a.wav") 30000).lowPassHz = 20000 :=
  ⟨(claim2_clamping (mkController "a.wav") 100).1.1 (by norm_num),
   (claim2_clamping (mkController "a.wav") 30000).1.2.1 (by norm_num)⟩

/-- C3: setupAudioGraph builds the fixed chain, connected in the order
source to high-pass to low-pass to gain stage to volume stage to output
destination, carrying the current parameter values, and a second build
request while a graph already exists is a no-op that leaves the whole state
(hence the existing graph) unchanged, in any environment. -/
theorem claim3_graph_chain (c : Controller) :
    (c.graph = none →
      (setupAudioGraph true c).graph
        = some ⟨c.highPassHz, c.lowPassHz, c.gain, c.volume,
            [(Node.source, Node.highPass), (Node.highPass, Node.lowPass),
             (Node.lowPass, Node.gainStage), (Node.gainStage, Node.volumeStage),
             (Node.volumeStage, Node.destination)]⟩) ∧
    (∀ env g, c.graph = some g → setupAudioGraph env c = c) := by
  constructor
  · intro h
    simp [setupAudioGraph, h, graphChain]
  · intro env g h
    by_cases he : env = false <;> simp [setupAudioGraph, he, h]

/-- Witness for claim3_graph_chain: building from a fresh controller yields
the chain with the default parameters, and building again is a no-op. -/
theorem claim3_graph_chain_witness :
    (setupAudioGraph true (mkController "a.wav")).graph
      = some ⟨20, 20000, 1, 1,
          [(Node.source, Node.highPass), (Node.highPass, Node.lowPass),
           (Node.lowPass, Node.gainStage), (Node.gainStage, Node.volumeStage),
           (Node.volumeStage, Node.destination)]⟩ ∧
    setupAudioGraph true (setupAudioGraph true (mkController "a.wav"))
      = setupAudioGraph true (mkController "a.wav") := by
  have h1 := (claim3_graph_chain (mkController "a.wav")).1 rfl
  exact ⟨h1, (claim3_graph_chain (setupAudioGraph true (mkController "a.wav"))).2 true _ h1⟩

/-- C4 counterexample: the slot is held by source b.wav while the player for
the different source a.wav is playing (a configuration an event-loop
interleaving of the awaits inside togglePlay can produce); the ended event
of the a.wav player then clears the slot to empty instead of leaving it
assigned to b.wav, because handleEnded calls currentlyPlaying.set(null)
with no check that this player is still the holder (lines 123 to 126). -/
theorem claim4_cex :
    pageStale.currentlyPlaying = some "b.wav" ∧
    (pageStale.controllers.map fun c => c.src) = ["a.wav"] ∧
    (pageStale.controllers.map fun c => c.isPlaying) = [true] ∧
    (run true pageStale [Event.ended 0]).currentlyPlaying = none ∧
    (run true pageStale [Event.ended 0]).currentlyPlaying ≠ some "b.wav" := by
  exact ⟨by decide, by decide, by decide, by decide, by decide⟩

/-- C4 amended: the release operations are unconditional.  handleEnded and
the pause branch of togglePlay always set the shared slot to empty, with no
check that the releasing controller is still the current holder; a release
performed while a different source holds the slot therefore vacates that
holder's slot (it never reassigns it to the releaser). -/
theorem claim4_release_unconditional (p : Page) (i : Nat) (c : Controller)
    (hg : p.controllers[i]? = some c) :
    (handleEnded p i).currentlyPlaying = none ∧
    (c.isPlaying = true →
      ∀ env o, (togglePlay env o p i).page.currentlyPlaying = none) := by
  constructor
  · simp [handleEnded, hg]
  · intro hp env o
    simp [togglePlay, hg, hp]

/-- Witness for claim4_release_unconditional: on the page where a.wav plays
and holds the slot, both release paths leave the slot empty. -/
theorem claim4_release_unconditional_witness :
    (handleEnded pageHeld 0).currentlyPlaying = none ∧
    (togglePlay true PlayOutcome.success pageHeld 0).page.currentlyPlaying = none := by
  have h := claim4_release_unconditional pageHeld 0 (playingController "a.wav") (by decide)
  exact ⟨h.1, h.2 (by decide) true PlayOutcome.success⟩

/-- C5 counterexample: destroy does not cancel an in-flight start.  Player 0
issues play (the synchronous prefix togglePlayStart runs), is destroyed
while the play promise is pending, and when the promise resolves the
continuation still marks the destroyed player as playing and assigns the
exclusivity slot to its source — contradicting the claim that an in-flight
start has no effect once it completes after destroy. -/
theorem claim5_cex :
    (playResolved (destroyController (togglePlayStart true pageOne 0) 0) 0).currentlyPlaying
      = some "a.wav" ∧
    ∀ c, (playResolved (destroyController (togglePlayStart true pageOne 0) 0) 0).controllers[0]?
        = some c → c.destroyed = true ∧ c.isPlaying = true := by
  exact ⟨by decide, by decide⟩

/-- C5 amended: onDestroy (lines 43 to 52) only disconnects the graph stages
and closes the context; it sets no cancellation flag and the continuation of
an in-flight play() consults none.  A play issued before destroy that
resolves afterwards therefore still marks the destroyed controller as
playing and assigns the slot to its source.  What destroy does guarantee is
that the filtered output path stays torn down: the graph's connections are
empty and the context is closed. -/
theorem claim5_destroy_no_cancel (p : Page) (i : Nat) (c : Controller)
    (hg : p.controllers[i]? = some c) :
    (playResolved (destroyController p i) i).currentlyPlaying = some c.src ∧
    ∀ c2, (playResolved (destroyController p i) i).controllers[i]? = some c2 →
      c2.isPlaying = true ∧ c2.destroyed = true ∧
      (c.graph = none → c2.graph = none) ∧
      ∀ g, c.graph = some g →
        c2.graph = some { g with connections := [] } ∧ c2.contextClosed = true := by
  have hq : (destroyController p i).controllers[i]?
      = some { onDestroyBody c with destroyed := true } := by
    show (updateAt i _ p.controllers)[i]? = _
    rw [getElem?_updateAt, hg]
    rfl
  have hr : playResolved (destroyController p i) i
      = ⟨updateAt i (fun x => { x with isPlaying := true })
            (destroyController p i).controllers,
          some ({ onDestroyBody c with destroyed := true }).src⟩ := by
    simp [playResolved, hq]
  constructor
  · rw [hr]
    show some (onDestroyBody c).src = some c.src
    rw [onDestroyBody_src]
  · intro c2 h2
    rw [hr] at h2
    simp only at h2
    rw [getElem?_updateAt, hq] at h2
    injection h2 with h2
    subst h2
    refine ⟨rfl, rfl, ?_, ?_⟩
    · intro hn
      show (onDestroyBody c).graph = none
      simp [onDestroyBody, hn]
    · intro g hgg
      constructor
      · show (onDestroyBody c).graph = _
        simp [onDestroyBody, hgg]
      · show (onDestroyBody c).contextClosed = true
        simp [onDestroyBody, hgg]

/-- Witness for claim5_destroy_no_cancel: the destroyed single player still
acquires the slot when its pending play resolves. -/
theorem claim5_destroy_no_cancel_witness :
    (playResolved (destroyController pageOne 0) 0).currentlyPlaying = some "a.wav" :=
  (claim5_destroy_no_cancel pageOne 0 (mkController "a.wav") (by decide)).1

/-- C6 counterexample: when audio.play() rejects, the catch block at lines
109 to 111 only calls console.error; the run's output contains no
PlaybackFailed signal for the caller, contradicting the part of the claim
that says the failure is surfaced to the caller as PlaybackFailed. -/
theorem claim6_cex :
    (togglePlay true PlayOutcome.playFailed pageOne 0).events = [Sig.consoleError] ∧
    Sig.playbackFailed ∉ (togglePlay true PlayOutcome.playFailed pageOne 0).events := by
  exact ⟨by decide, by decide⟩

/-- C6 amended: when the source fails to start (the context resume or the
play call rejects), the controller indeed remains not playing (Idle), the
exclusivity slot is unchanged (not acquired for it), and a subsequent
play() that succeeds makes it play again (retry possible); but the failure
is only logged to the console — no PlaybackFailed signal is delivered to
the caller. -/
theorem claim6_failure_semantics (env : Bool) (o : PlayOutcome) (p : Page) (i : Nat)
    (c : Controller) (hg : p.controllers[i]? = some c) (hp : c.isPlaying = false)
    (ho : o ≠ PlayOutcome.success) :
    (togglePlay env o p i).events = [Sig.consoleError] ∧
    Sig.playbackFailed ∉ (togglePlay env o p i).events ∧
    (togglePlay env o p i).page.currentlyPlaying = p.currentlyPlaying ∧
    (∀ c2, (togglePlay env o p i).page.controllers[i]? = some c2 →
      c2.isPlaying = false) ∧
    ∀ c3, (togglePlay env PlayOutcome.success
        (togglePlay env o p i).page i).page.controllers[i]? = some c3 →
      c3.isPlaying = true := by
  obtain ⟨h1, h2, c2, hc2, hc2p⟩ := togglePlay_failed_state env o p i c hg hp ho
  refine ⟨h1, by rw [h1]; simp, h2, ?_, ?_⟩
  · intro c2' h
    rw [hc2] at h
    injection h with h
    rw [← h]
    exact hc2p
  · exact togglePlay_success_sets_playing env _ i c2 hc2 hc2p

/-- Witness for claim6_failure_semantics: the single idle player with a
rejecting resume. -/
theorem claim6_failure_semantics_witness :
    (togglePlay true PlayOutcome.resumeFailed pageOne 0).events = [Sig.consoleError] ∧
    Sig.playbackFailed ∉ (togglePlay true PlayOutcome.resumeFailed pageOne 0).events ∧
    (togglePlay true PlayOutcome.resumeFailed pageOne 0).page.currentlyPlaying
      = pageOne.currentlyPlaying ∧
    (∀ c2, (togglePlay true PlayOutcome.resumeFailed pageOne 0).page.controllers[0]?
        = some c2 → c2.isPlaying = false) ∧
    ∀ c3, (togglePlay true PlayOutcome.success
        (togglePlay true PlayOutcome.resumeFailed pageOne 0).page 0).page.controllers[0]?
        = some c3 → c3.isPlaying = true :=
  claim6_failure_semantics true PlayOutcome.resumeFailed pageOne 0
    (mkController "a.wav") (by decide) (by decide) (by decide)

/-- C7 counterexample: player 0 (a.wav) is playing and holds the slot;
player 1 (b.wav) attempts play() and the start fails.  Afterwards player 0
has been paused, because togglePlay pauses the current holder (lines 102 to
105) before the failing await audio.play() — so the sibling's playback
state is not the same as if the failed play had never been called. -/
theorem claim7_cex :
    pageHeld.controllers.map (fun c => c.isPlaying) = [true, false] ∧
    (togglePlay true PlayOutcome.playFailed pageHeld 1).page.controllers.map
        (fun c => c.isPlaying) = [false, false] ∧
    (togglePlay true PlayOutcome.playFailed pageHeld 1).page.currentlyPlaying
      = some "a.wav" := by
  exact ⟨by decide, by decide, by decide⟩

/-- C7 amended: a failed play() on controller X leaves the exclusivity slot
unchanged and starts nothing: every controller playing afterwards was
already playing before, with its source unchanged, so the at-most-one
invariant is not violated.  However X's attempt pauses the current player
before the failure point, so the sibling's state is Paused, not restored
to Playing. -/
theorem claim7_failure_isolation (env : Bool) (o : PlayOutcome) (p : Page) (i : Nat)
    (c : Controller) (hg : p.controllers[i]? = some c) (hp : c.isPlaying = false)
    (ho : o ≠ PlayOutcome.success) :
    (togglePlay env o p i).page.currentlyPlaying = p.currentlyPlaying ∧
    ∀ (j : Nat) (c2 : Controller), (togglePlay env o p i).page.controllers[j]? = some c2 →
      c2.isPlaying = true → p.controllers[j]? = some c2 := by
  have hp' : ¬c.isPlaying = true := by simp [hp]
  refine ⟨(togglePlay_failed_state env o p i c hg hp ho).2.1, ?_⟩
  intro j c2 h hq
  cases o with
  | success => exact absurd rfl ho
  | resumeFailed =>
    have hred : (togglePlay env PlayOutcome.resumeFailed p i).page.controllers
        = updateAt i (setupAudioGraph env) p.controllers := by
      simp [togglePlay, hg, hp']
    rw [hred] at h
    exact playing_survivor hg hp h hq
  | playFailed =>
    cases hcp : p.currentlyPlaying with
    | none =>
      have hred : (togglePlay env PlayOutcome.playFailed p i).page.controllers
          = updateAt i (setupAudioGraph env) p.controllers := by
        simp [togglePlay, hg, hp', hcp]
      rw [hred] at h
      exact playing_survivor hg hp h hq
    | some s =>
      by_cases hs : s = c.src
      · have hred : (togglePlay env PlayOutcome.playFailed p i).page.controllers
            = updateAt i (setupAudioGraph env) p.controllers := by
          simp [togglePlay, hg, hp', hcp, hs]
        rw [hred] at h
        exact playing_survivor hg hp h hq
      · have hred : (togglePlay env PlayOutcome.playFailed p i).page.controllers
            = pauseFirst s (updateAt i (setupAudioGraph env) p.controllers) := by
          simp [togglePlay, hg, hp', hcp, hs]
        rw [hred] at h
        rcases getElem?_pauseFirst h with ⟨y, hy, hor⟩
        rcases hor with rfl | ⟨hys, rfl⟩
        · exact playing_survivor hg hp hy hq
        · cases hq


/-- Witness for claim7_failure_isolation: the held two-player page with a
failing play on the idle player. -/
theorem claim7_failure_isolation_witness :
    (togglePlay true PlayOutcome.playFailed pageHeld 1).page.currentlyPlaying
      = pageHeld.currentlyPlaying ∧
    ∀ (j : Nat) (c2 : Controller),
        (togglePlay true PlayOutcome.playFailed pageHeld 1).page.controllers[j]?
        = some c2 → c2.isPlaying = true → pageHeld.controllers[j]? = some c2 :=
  claim7_failure_isolation true PlayOutcome.playFailed pageHeld 1
    (mkController "b.wav") (by decide) (by decide) (by decide)

/-- C8 counterexample: with metadata not yet loaded (duration still its
initial 0), a click at the middle of the progress bar applies immediately
and sets the position to percent times 0, that is 0; no queue exists in the
source (seek, lines 136 to 141), and when metadata then reports duration 10
the position is still 0 (handleLoadedMetadata, lines 119 to 121, only
records the duration) instead of the 5 a queued 50 percent seek would
give. -/
theorem claim8_cex :
    (handleLoadedMetadata (seekClick pageOne 0 5 0 10) 0 10).controllers.map
        (fun c => c.currentTime) = [0] ∧
    (handleLoadedMetadata (seekClick pageOne 0 5 0 10) 0 10).controllers.map
        (fun c => c.duration) = [10] ∧
    (0 : ℚ) ≠ 5 := by
  refine ⟨?_, ?_, by norm_num⟩
  · simp [handleLoadedMetadata, seekClick, pageOne, mkController, updateAt]
  · simp [handleLoadedMetadata, seekClick, pageOne, mkController, updateAt]

/-- C8 amended: a seek click is valid in every playback state and applies
immediately: the position becomes (clientX - rectLeft) / rectWidth times
duration, which lies in the interval [0, duration] whenever the click lies
inside the bar and the duration is nonnegative.  When metadata has not
loaded, the duration is still its initial 0, so the seek sets position 0;
it is not queued, and handleLoadedMetadata only records the incoming
duration without re-applying any seek. -/
theorem claim8_seek (p : Page) (i : Nat) (c : Controller) (x l w d : ℚ)
    (hg : p.controllers[i]? = some c) (h1 : l ≤ x) (h2 : x ≤ l + w) (h3 : 0 < w)
    (h4 : 0 ≤ c.duration) :
    (∀ c2 : Controller, (seekClick p i x l w).controllers[i]? = some c2 →
      c2.currentTime = (x - l) / w * c.duration ∧
      0 ≤ c2.currentTime ∧ c2.currentTime ≤ c.duration) ∧
    (∀ (q : Page) (j : Nat) (c3 : Controller), q.controllers[j]? = some c3 →
      ∀ c4 : Controller, (handleLoadedMetadata q j d).controllers[j]? = some c4 →
        c4.currentTime = c3.currentTime ∧ c4.duration = d) := by
  constructor
  · intro c2 hc2
    have hget : (seekClick p i x l w).controllers[i]?
        = some { c with currentTime := (x - l) / w * c.duration } := by
      show (updateAt i _ p.controllers)[i]? = _
      rw [getElem?_updateAt, hg]
      rfl
    rw [hget] at hc2
    injection hc2 with hc2
    subst hc2
    have hpct0 : 0 ≤ (x - l) / w := div_nonneg (by linarith) (le_of_lt h3)
    have hpct1 : (x - l) / w ≤ 1 := by
      rw [div_le_one h3]
      linarith
    refine ⟨rfl, ?_, ?_⟩
    · show 0 ≤ (x - l) / w * c.duration
      exact mul_nonneg hpct0 h4
    · show (x - l) / w * c.duration ≤ c.duration
      exact mul_le_of_le_one_left h4 hpct1
  · intro q j c3 hc3 c4 hc4
    have hget : (handleLoadedMetadata q j d).controllers[j]?
        = some { c3 with duration := d } := by
      show (updateAt j _ q.controllers)[j]? = _
      rw [getElem?_updateAt, hc3]
      rfl
    rw [hget] at hc4
    injection hc4 with hc4
    subst hc4
    exact ⟨rfl, rfl⟩

/-- Witness for claim8_seek: a click at the middle of a bar of width 10 on
the fresh single player, followed by metadata reporting duration 10. -/
theorem claim8_seek_witness :
    (∀ c2 : Controller, (seekClick pageOne 0 5 0 10).controllers[0]? = some c2 →
      c2.currentTime = (5 - 0) / 10 * (mkController "a.wav").duration ∧
      0 ≤ c2.currentTime ∧ c2.currentTime ≤ (mkController "a.wav").duration) ∧
    (∀ (q : Page) (j : Nat) (c3 : Controller), q.controllers[j]? = some c3 →
      ∀ c4 : Controller, (handleLoadedMetadata q j 10).controllers[j]? = some c4 →
        c4.currentTime = c3.currentTime ∧ c4.duration = 10) :=
  claim8_seek pageOne 0 (mkController "a.wav") 5 0 10 10 (by decide) (by norm_num)
    (by norm_num) (by norm_num) (by norm_num [mkController])

/-- C9: Filter parameters set while the controller is Idle and no graph is
built yet are recorded without any error (the setters are total and leave
the graph absent), and the graph built by a subsequent play() carries in
its four stages exactly the recorded (slider-sanitized) values. -/
theorem claim9_durability (c : Controller) (v1 v2 v3 v4 : ℚ)
    (hg : c.graph = none) (hp : c.isPlaying = false) :
    (setVolumeValue (setGainValue (setLowPassHz (setHighPassHz c v1) v2) v3) v4).graph
        = none ∧
    ∀ c2 : Controller, (togglePlay true PlayOutcome.success
        ⟨[setVolumeValue (setGainValue (setLowPassHz (setHighPassHz c v1) v2) v3) v4],
          none⟩ 0).page.controllers[0]? = some c2 →
      c2.graph = some ⟨rangeClamp 20 5000 v1, rangeClamp 500 20000 v2,
          rangeClamp 0 3 v3, rangeClamp 0 1 v4, graphChain⟩ := by
  have hcP : setVolumeValue (setGainValue (setLowPassHz (setHighPassHz c v1) v2) v3) v4
      = { c with
            highPassHz := rangeClamp 20 5000 v1
            lowPassHz := rangeClamp 500 20000 v2
            gain := rangeClamp 0 3 v3
            volume := rangeClamp 0 1 v4 } := by
    simp [setHighPassHz, setLowPassHz, setGainValue, setVolumeValue, hg]
  rw [hcP]
  refine ⟨hg, ?_⟩
  intro c2 h2
  have hred : (togglePlay true PlayOutcome.success
      (⟨[{ c with
            highPassHz := rangeClamp 20 5000 v1
            lowPassHz := rangeClamp 500 20000 v2
            gain := rangeClamp 0 3 v3
            volume := rangeClamp 0 1 v4 }], none⟩ : Page)
      0).page.controllers
      = [{ setupAudioGraph true
            { c with
                highPassHz := rangeClamp 20 5000 v1
                lowPassHz := rangeClamp 500 20000 v2
                gain := rangeClamp 0 3 v3
                volume := rangeClamp 0 1 v4 }
            with isPlaying := true }] := by
    simp [togglePlay, updateAt, hp]
  rw [hred] at h2
  simp only [List.getElem?_cons_zero] at h2
  injection h2 with h2
  subst h2
  show (setupAudioGraph true _).graph = _
  simp [setupAudioGraph, hg, graphChain]

/-- Witness for claim9_durability: the fresh player with edits 1000
(in range), 100 (clamped up to 500), 5 (clamped down to 3) and 2 (clamped
down to 1). -/
theorem claim9_durability_witness :
    (setVolumeValue (setGainValue (setLowPassHz (setHighPassHz (mkController "a.wav") 1000)
        100) 5) 2).graph = none ∧
    ∀ c2 : Controller, (togglePlay true PlayOutcome.success
        ⟨[setVolumeValue (setGainValue (setLowPassHz (setHighPassHz (mkController "a.wav")
            1000) 100) 5) 2], none⟩ 0).page.controllers[0]? = some c2 →
      c2.graph = some ⟨rangeClamp 20 5000 1000, rangeClamp 500 20000 100,
          rangeClamp 0 3 5, rangeClamp 0 1 2, graphChain⟩ :=
  claim9_durability (mkController "a.wav") 1000 100 5 2 rfl rfl

/-- C10 counterexample: the claim fails at negative finite inputs.  At
seconds = -61 the code computes Math.floor(-61 / 60) = -2 minutes and
Math.floor(-61 % 60) = Math.floor(-1) = -1 seconds, because the JavaScript
remainder carries the dividend's sign, so it renders the string -2:-1;
the claimed rendering floor(seconds / 60), colon, floor(seconds) mod 60
zero-padded gives -2 and 59, that is the string -2:59.  The two differ. -/
theorem claim10_cex :
    formatTime (JSNum.finite (-61)) = "-2:-1" ∧
    toString (Int.floor (-61 : ℚ) / 60) ++ ":"
      ++ padStart2 (toString (Int.floor (-61 : ℚ) % 60)) = "-2:59" ∧
    ("-2:-1" : String) ≠ "-2:59" := by
  refine ⟨?_, ?_, by decide⟩
  · have h1 : Int.floor ((-61 : ℚ) / 60) = -2 := by norm_num
    have h2 : jsRem (-61) 60 = -1 := by
      have hce : Int.ceil ((-61 : ℚ) / 60) = -1 := by
        have hneg : ((-61 : ℚ) / 60) = -(61 / 60) := by norm_num
        rw [hneg, Int.ceil_neg]
        norm_num
      unfold jsRem jsTrunc
      rw [if_pos (by norm_num : ((-61 : ℚ) / 60) < 0), hce]
      norm_num
    have h3 : Int.floor ((-1 : ℚ)) = -1 := by norm_num
    show toString (Int.floor ((-61 : ℚ) / 60)) ++ ":"
        ++ padStart2 (toString (Int.floor (jsRem (-61) 60))) = "-2:-1"
    rw [h1, h2, h3]
    rfl
  · have h : Int.floor (-61 : ℚ) = -61 := by norm_num
    rw [h]
    rfl

/-- C10 amended: formatTime is total on all numeric inputs — every
non-finite input (NaN or either infinity) returns the string 0:00 — and
for a finite NONNEGATIVE input of q seconds (the only time values a media
element reports) it returns the integer division of floor(q) by 60, a
colon, and floor(q) modulo 60 zero-padded to two characters.  For negative
finite inputs the source's JavaScript remainder q % 60 carries the sign of
the dividend, so the seconds part is rendered negative rather than as the
nonnegative mathematical mod — the floor/mod description holds only on the
nonnegative half. -/
theorem claim10_formatTime (n : JSNum) (q : ℚ) (hq : 0 ≤ q) :
    ((n = JSNum.nan ∨ n = JSNum.posInf ∨ n = JSNum.negInf) → formatTime n = "0:00") ∧
    formatTime (JSNum.finite q)
      = toString (Int.floor q / 60) ++ ":" ++ padStart2 (toString (Int.floor q % 60)) := by
  constructor
  · rintro (rfl | rfl | rfl) <;> rfl
  · show toString (Int.floor (q / 60)) ++ ":"
        ++ padStart2 (toString (Int.floor (jsRem q 60))) = _
    rw [floor_div_sixty, floor_jsRem_sixty q hq]

/-- Witness for claim10_formatTime: 125 seconds render as two minutes and
five seconds. -/
theorem claim10_formatTime_witness :
    formatTime (JSNum.finite 125)
      = toString (Int.floor (125:ℚ) / 60) ++ ":"
        ++ padStart2 (toString (Int.floor (125:ℚ) % 60)) :=
  (claim10_formatTime JSNum.nan 125 (by norm_num)).2

end BirdNET
